import Mathlib

/-!
Shallow embedding of `src/registry.ts` (flamecs): the typed component-identity
and event-dispatch layer built on top of the external jecs entity-component
store.  Keys (`Modding.Generic` tokens) are modelled as `String`, entity and
component identifiers as `Nat`, runtime values as `Val`.  The external store
(`registry = new ecs.World()`) is modelled at the interface this layer
consumes: fresh-handle allocation and per-(entity, identifier) records; the
built-in hook components `ecs.OnAdd`, `ecs.OnRemove`, `ecs.OnSet` are three
reserved handles below the first allocated one, exactly as jecs reserves its
builtin component ids.  A thrown Lua `assert` is modelled by an `Except.error`
carrying the diagnostic together with the state at the moment of the throw
(a throw does not roll back mutations already performed).
-/

namespace Flamecs

/-- Association-list lookup, modelling reads of the source's `Map` objects
(`components`, `idToKey`), of the `signals.added/changed/removed` records and
of the store's per-(entity, identifier) records: `none` when the key is
absent. -/
def alookup {α β : Type} [DecidableEq α] : List (α × β) → α → Option β
  | [], _ => none
  | p :: ps, k => if p.1 = k then some p.2 else alookup ps k

/-- Association-list update, modelling `Map.set` / record assignment: it
overwrites the binding when the key is already present and appends the new
binding otherwise. -/
def mapSet {α β : Type} [DecidableEq α] : List (α × β) → α → β → List (α × β)
  | [], k, v => [(k, v)]
  | p :: ps, k, v => if p.1 = k then (k, v) :: ps else p :: mapSet ps k v

/-- Runtime values held by the store.  The source is dynamically typed at
runtime (TypeScript types are erased by roblox-ts), so a single value type
covers numbers, strings and arrays; the hook closures that `component`
registers on the store are represented by the handle of the signal each one
fires — `hookAdded h` is the closure `entity => addedSignal.fire(entity)`
where `h` is the handle of `addedSignal`, and so on. -/
inductive Val : Type where
  | num : Int → Val
  | str : String → Val
  | arr : List Val → Val
  | hookAdded : Nat → Val
  | hookRemoved : Nat → Val
  | hookChanged : Nat → Val

/-- The external jecs world (`registry`), modelled at the interface consumed
by this layer: a fresh-handle counter shared by entities and component
identifiers, and per-(entity, identifier) records, where a record with value
`none` is a tag added without a payload.  `entityAllocs` and `componentAllocs`
count how many times `registry.entity()` and `registry.component()` have been
called. -/
structure Store : Type where
  nextHandle : Nat
  entityAllocs : Nat
  componentAllocs : Nat
  records : List ((Nat × Nat) × Option Val)

/-- jecs builtin hook component `ecs.OnAdd`. -/
def OnAdd : Nat := 1

/-- jecs builtin hook component `ecs.OnRemove`. -/
def OnRemove : Nat := 2

/-- jecs builtin hook component `ecs.OnSet`. -/
def OnSet : Nat := 3

/-- `registry.entity()`: mint a fresh entity handle. -/
def Store.entity (st : Store) : Nat × Store :=
  (st.nextHandle,
    { st with nextHandle := st.nextHandle + 1, entityAllocs := st.entityAllocs + 1 })

/-- `registry.component()`: mint a fresh component identifier. -/
def Store.component (st : Store) : Nat × Store :=
  (st.nextHandle,
    { st with nextHandle := st.nextHandle + 1, componentAllocs := st.componentAllocs + 1 })

/-- `registry.set(entity, id, value)`: write a value under an identifier. -/
def Store.set (st : Store) (entity id : Nat) (value : Val) : Store :=
  { st with records := mapSet st.records (entity, id) (some value) }

/-- `registry.add(entity, id)`: attach an identifier as a payload-free tag;
idempotent when already present. -/
def Store.add (st : Store) (entity id : Nat) : Store :=
  match alookup st.records (entity, id) with
  | some _ => st
  | none => { st with records := mapSet st.records (entity, id) none }

/-- `registry.get(entity, id)`: the stored value, or `none` when the entity
lacks the identifier or holds it as a payload-free tag. -/
def Store.get (st : Store) (entity id : Nat) : Option Val :=
  match alookup st.records (entity, id) with
  | some v => v
  | none => none

/-- `registry.has(entity, id)`. -/
def Store.has (st : Store) (entity id : Nat) : Bool :=
  (alookup st.records (entity, id)).isSome

/-- `registry.remove(entity, id)`. -/
def Store.remove (st : Store) (entity id : Nat) : Store :=
  { st with records := st.records.filter (fun r => !(r.1 == (entity, id))) }

/-- `registry.delete(entity)`: drop every record of the entity. -/
def Store.delete (st : Store) (entity : Nat) : Store :=
  { st with records := st.records.filter (fun r => !(r.1.1 == entity)) }

/-- The whole mutable state of `registry.ts`: the store plus the module-level
`signals` record, the `idToKey` map, the `components` key-to-identifier map,
and an allocator for signal-instance handles (`createSignal` returns a fresh
object each call; `liveSignals` records every signal ever created — nothing
in the source ever destroys one). -/
structure RegState : Type where
  store : Store
  signalsAdded : List (Nat × Nat)
  signalsChanged : List (Nat × Nat)
  signalsRemoved : List (Nat × Nat)
  liveSignals : List Nat
  idToKey : List (Nat × String)
  components : List (String × Nat)
  nextSignal : Nat

/-- `createSignal()`: allocate a fresh, live signal instance. -/
def createSignal (s : RegState) : Nat × RegState :=
  (s.nextSignal,
    { s with liveSignals := s.liveSignals ++ [s.nextSignal], nextSignal := s.nextSignal + 1 })

/-- `added(id)`: the source returns `signals.added[id]!`; the non-null
assertion is erased at runtime, so a missing key yields the absent value. -/
def added (s : RegState) (id : Nat) : Option Nat :=
  alookup s.signalsAdded id

/-- `removed(id)`: the source returns `signals.removed[id]!`. -/
def removed (s : RegState) (id : Nat) : Option Nat :=
  alookup s.signalsRemoved id

/-- `component(key)`: assert the key is present; return the memoized
identifier if the key is already interned; otherwise mint an identifier from
the store, record both map directions, create the three signals (added,
removed, changed — in source order) and register the three lifecycle hooks on
the store, then return the identifier. -/
def component (s : RegState) (key : Option String) :
    Except (String × RegState) (Nat × RegState) :=
  match key with
  | none => .error ("assertion failed", s)
  | some k =>
    match alookup s.components k with
    | some id => .ok (id, s)
    | none =>
      let id := (Store.component s.store).1
      let s1 : RegState :=
        { s with
          store := (Store.component s.store).2,
          components := mapSet s.components k id,
          idToKey := mapSet s.idToKey id k }
      let hA := (createSignal s1).1
      let sA := (createSignal s1).2
      let hR := (createSignal sA).1
      let sR := (createSignal sA).2
      let hC := (createSignal sR).1
      let sC := (createSignal sR).2
      let s2 : RegState :=
        { sC with
          signalsAdded := mapSet sC.signalsAdded id hA,
          signalsRemoved := mapSet sC.signalsRemoved id hR,
          signalsChanged := mapSet sC.signalsChanged id hC }
      let s3 : RegState := { s2 with store := Store.set s2.store id OnAdd (Val.hookAdded hA) }
      let s4 : RegState := { s3 with store := Store.set s3.store id OnRemove (Val.hookRemoved hR) }
      let s5 : RegState := { s4 with store := Store.set s4.store id OnSet (Val.hookChanged hC) }
      .ok (id, s5)

/-- `set(entity, value, key)`: resolve the identifier, then
`registry.set(entity, id, value)`. -/
def set (s : RegState) (entity : Nat) (value : Val) (key : Option String) :
    Except (String × RegState) RegState :=
  match component s key with
  | .error err => .error err
  | .ok (id, s1) => .ok { s1 with store := Store.set s1.store entity id value }

/-- The loop body of `insert`: `for (const key of keys) { const id =
component(key); registry.set(entity, id, values); }` — note the source passes
the whole `values` array as the stored value for every key. -/
def insertLoop : RegState → Nat → List Val → List String →
    Except (String × RegState) RegState
  | s, _, _, [] => .ok s
  | s, entity, values, k :: rest =>
    match component s (some k) with
    | .error err => .error err
    | .ok (id, s1) =>
      insertLoop { s1 with store := Store.set s1.store entity id (Val.arr values) }
        entity values rest

/-- `insert(entity, values, keys)`: assert `keys` is present, then run the
loop over the keys. -/
def insert (s : RegState) (entity : Nat) (values : List Val)
    (keys : Option (List String)) : Except (String × RegState) RegState :=
  match keys with
  | none => .error ("assertion failed", s)
  | some ks => insertLoop s entity values ks

/-- `add(entity, key)`: resolve the identifier, then `registry.add`. -/
def add (s : RegState) (entity : Nat) (key : Option String) :
    Except (String × RegState) RegState :=
  match component s key with
  | .error err => .error err
  | .ok (id, s1) => .ok { s1 with store := Store.add s1.store entity id }

/-- `remove(entity, key)`: resolve the identifier, then `registry.remove`. -/
def remove (s : RegState) (entity : Nat) (key : Option String) :
    Except (String × RegState) RegState :=
  match component s key with
  | .error err => .error err
  | .ok (id, s1) => .ok { s1 with store := Store.remove s1.store entity id }

/-- `get(entity, key)`: resolve the identifier, then `registry.get`. -/
def get (s : RegState) (entity : Nat) (key : Option String) :
    Except (String × RegState) (Option Val × RegState) :=
  match component s key with
  | .error err => .error err
  | .ok (id, s1) => .ok (Store.get s1.store entity id, s1)

/-- `has(entity, key)`: resolve the identifier, then `registry.has`. -/
def has (s : RegState) (entity : Nat) (key : Option String) :
    Except (String × RegState) (Bool × RegState) :=
  match component s key with
  | .error err => .error err
  | .ok (id, s1) => .ok (Store.has s1.store entity id, s1)

/-- The loop of `spawn`: `for (const index of $range(0, size - 1))` over the
bundle, reading `keys[index]` (the absent value once the keys run out),
resolving it through `component` and setting `bundle[index]` on the new
entity.  Iterating positions of the bundle while reading `keys[index]` is
rendered by structural recursion on the bundle that consumes the key list in
lockstep, `keys.head?` being `keys[index]`. -/
def spawnLoop : RegState → Nat → List Val → List String →
    Except (String × RegState) RegState
  | s, _, [], _ => .ok s
  | s, entity, data :: rest, ks =>
    match component s ks.head? with
    | .error err => .error err
    | .ok (id, s1) =>
      spawnLoop { s1 with store := Store.set s1.store entity id data } entity rest ks.tail

/-- `spawn(bundle, keys)`: request a new entity from the store; if both
`keys` and `bundle` are present, run the positional loop; return the
entity. -/
def spawn (s : RegState) (bundle : Option (List Val)) (keys : Option (List String)) :
    Except (String × RegState) (Nat × RegState) :=
  let entity := (Store.entity s.store).1
  let s1 : RegState := { s with store := (Store.entity s.store).2 }
  match keys, bundle with
  | some ks, some vs =>
    (match spawnLoop s1 entity vs ks with
     | .error err => .error err
     | .ok s2 => .ok (entity, s2))
  | _, _ => .ok (entity, s1)

/-- `despawn(entity)`: `registry.delete(entity)`; cannot fail. -/
def despawn (s : RegState) (entity : Nat) : RegState :=
  { s with store := Store.delete s.store entity }

/-- The module's initial state: empty maps, no signals, and a store whose
first allocatable handle lies above the reserved builtin hook ids. -/
def initState : RegState :=
  { store := { nextHandle := 4, entityAllocs := 0, componentAllocs := 0, records := [] }
    signalsAdded := []
    signalsChanged := []
    signalsRemoved := []
    liveSignals := []
    idToKey := []
    components := []
    nextSignal := 0 }

/-- One invocation of a public facade operation, with its arguments. -/
inductive Op : Type where
  | opComponent : Option String → Op
  | opSet : Nat → Val → Option String → Op
  | opInsert : Nat → List Val → Option (List String) → Op
  | opAdd : Nat → Option String → Op
  | opRemove : Nat → Option String → Op
  | opGet : Nat → Option String → Op
  | opHas : Nat → Option String → Op
  | opSpawn : Option (List Val) → Option (List String) → Op
  | opDespawn : Nat → Op

/-- The registry state an operation leaves behind, whether it returned
normally or threw (a Lua throw does not roll mutations back). -/
def outState {α : Type} : Except (String × RegState) (α × RegState) → RegState
  | .ok (_, s) => s
  | .error (_, s) => s

/-- Same as `outState` for the operations that return nothing. -/
def voidState : Except (String × RegState) RegState → RegState
  | .ok s => s
  | .error (_, s) => s

/-- Whether an operation returned normally (did not throw). -/
def okE {ε α : Type} : Except ε α → Bool
  | .ok _ => true
  | .error _ => false

/-- Run one facade operation for its effect on the registry state. -/
def runOp : Op → RegState → RegState
  | .opComponent key, s => outState (component s key)
  | .opSet entity value key, s => voidState (set s entity value key)
  | .opInsert entity values keys, s => voidState (insert s entity values keys)
  | .opAdd entity key, s => voidState (add s entity key)
  | .opRemove entity key, s => voidState (remove s entity key)
  | .opGet entity key, s => outState (get s entity key)
  | .opHas entity key, s => outState (has s entity key)
  | .opSpawn bundle keys, s => outState (spawn s bundle keys)
  | .opDespawn entity, s => despawn s entity

/-- Run a sequence of facade operations in order. -/
def runSeq : List Op → RegState → RegState
  | [], s => s
  | op :: ops, s => runSeq ops (runOp op s)

/-- Sequencing the facade `set` over positional (value, key) pairs: the
"equivalent of one `set` per pair" that the specification describes for
`spawn`, with `keys.head?` standing for `keys[index]`. -/
def setAll : RegState → Nat → List Val → List String →
    Except (String × RegState) RegState
  | s, _, [], _ => .ok s
  | s, entity, value :: rest, ks =>
    match set s entity value ks.head? with
    | .error err => .error err
    | .ok s1 => setAll s1 entity rest ks.tail

/-- A signal accessor result is a valid live signal: the lookup found a
handle and that handle was created by `createSignal` and never destroyed. -/
def liveSigB (s : RegState) : Option Nat → Bool
  | some h => decide (h ∈ s.liveSignals)
  | none => false

/-- The three signals of an identifier all resolve to valid live signal
instances (`added`/`removed` through the exported accessors, `changed`
through the `signals.changed` record the hooks capture). -/
def tripleLiveB (s : RegState) (id : Nat) : Bool :=
  liveSigB s (added s id) && liveSigB s (alookup s.signalsChanged id) &&
    liveSigB s (removed s id)

/-- Every identifier appearing as a key of the registry's id-indexed maps was
handed out by the store: it lies below the store's fresh-handle counter. -/
def boundedB (s : RegState) : Bool :=
  s.idToKey.all (fun p => decide (p.1 < s.store.nextHandle)) &&
    s.signalsAdded.all (fun p => decide (p.1 < s.store.nextHandle)) &&
    s.signalsChanged.all (fun p => decide (p.1 < s.store.nextHandle)) &&
    s.signalsRemoved.all (fun p => decide (p.1 < s.store.nextHandle))

/-- Every identifier with a signal-table entry is recorded in `idToKey`, i.e.
was minted by `component`. -/
def syncB (s : RegState) : Bool :=
  s.signalsAdded.all (fun p => (alookup s.idToKey p.1).isSome) &&
    s.signalsRemoved.all (fun p => (alookup s.idToKey p.1).isSome)

/-- Registry well-formedness: identifier keys are store-allocated, signal
tables track minted identifiers, and every interned identifier owns a live
signal triple.  It holds in the initial state and is preserved by every
facade operation. -/
def goodB (s : RegState) : Bool :=
  boundedB s && syncB s && s.components.all (fun p => tripleLiveB s p.2)

/-- Monotone extension of registry bookkeeping: every binding of the
key-to-identifier map, the id-to-key map and the three signal tables is
preserved, every live signal stays live, and the store's handle counter never
decreases. -/
def Ext (s t : RegState) : Prop :=
  s.store.nextHandle ≤ t.store.nextHandle ∧
    (∀ k id, alookup s.components k = some id → alookup t.components k = some id) ∧
    (∀ id k, alookup s.idToKey id = some k → alookup t.idToKey id = some k) ∧
    (∀ id h, alookup s.signalsAdded id = some h → alookup t.signalsAdded id = some h) ∧
    (∀ id h, alookup s.signalsChanged id = some h → alookup t.signalsChanged id = some h) ∧
    (∀ id h, alookup s.signalsRemoved id = some h → alookup t.signalsRemoved id = some h) ∧
    (∀ h, h ∈ s.liveSignals → h ∈ t.liveSignals)

/-- The state `component` builds when it interns a fresh key `k`: the store
has minted one identifier and carries the three hook registrations, both map
directions record the binding, the three signal tables hold the three freshly
created signals, all of which are live.  (See `component_fresh_eq`.) -/
def mintedState (s : RegState) (k : String) : RegState :=
  { store :=
      { nextHandle := s.store.nextHandle + 1
        entityAllocs := s.store.entityAllocs
        componentAllocs := s.store.componentAllocs + 1
        records := mapSet (mapSet (mapSet s.store.records
          (s.store.nextHandle, OnAdd) (some (Val.hookAdded s.nextSignal)))
          (s.store.nextHandle, OnRemove) (some (Val.hookRemoved (s.nextSignal + 1))))
          (s.store.nextHandle, OnSet) (some (Val.hookChanged (s.nextSignal + 2))) }
    signalsAdded := mapSet s.signalsAdded s.store.nextHandle s.nextSignal
    signalsChanged := mapSet s.signalsChanged s.store.nextHandle (s.nextSignal + 2)
    signalsRemoved := mapSet s.signalsRemoved s.store.nextHandle (s.nextSignal + 1)
    liveSignals := s.liveSignals ++ [s.nextSignal] ++ [s.nextSignal + 1] ++ [s.nextSignal + 2]
    idToKey := mapSet s.idToKey s.store.nextHandle k
    components := mapSet s.components k s.store.nextHandle
    nextSignal := s.nextSignal + 3 }

theorem alookup_mapSet {α β : Type} [DecidableEq α] (m : List (α × β)) (a : α) (b : β)
    (k : α) : alookup (mapSet m a b) k = if a = k then some b else alookup m k := by
  induction m with
  | nil => simp [mapSet, alookup]
  | cons p ps ih =>
    by_cases hpa : p.1 = a
    · simp only [mapSet, hpa, if_pos rfl, alookup]
      by_cases hak : a = k
      · simp [hak]
      · simp [hak, hpa, alookup]
    · simp only [mapSet, if_neg hpa, alookup]
      by_cases hpk : p.1 = k
      · have hak : ¬a = k := fun h => hpa (h ▸ hpk)
        simp [hpk, hak]
      · simp [hpk, ih]

theorem mem_mapSet {α β : Type} [DecidableEq α] (m : List (α × β)) (a : α) (b : β)
    (p : α × β) (hp : p ∈ mapSet m a b) : p ∈ m ∨ p = (a, b) := by
  induction m with
  | nil => simp [mapSet] at hp; exact Or.inr hp
  | cons q qs ih =>
    by_cases hqa : q.1 = a
    · simp only [mapSet, if_pos hqa] at hp
      rcases List.mem_cons.mp hp with h | h
      · exact Or.inr h
      · exact Or.inl (List.mem_cons_of_mem q h)
    · simp only [mapSet, if_neg hqa] at hp
      rcases List.mem_cons.mp hp with h | h
      · exact Or.inl (h ▸ List.mem_cons_self q qs)
      · rcases ih h with h1 | h1
        · exact Or.inl (List.mem_cons_of_mem q h1)
        · exact Or.inr h1

theorem alookup_mem {α β : Type} [DecidableEq α] (m : List (α × β)) (k : α) (v : β)
    (h : alookup m k = some v) : (k, v) ∈ m := by
  induction m with
  | nil => simp [alookup] at h
  | cons p ps ih =>
    by_cases hpk : p.1 = k
    · simp only [alookup, if_pos hpk] at h
      have hv : p.2 = v := Option.some.inj h
      have hpkv : p = (k, v) := by
        cases p
        simp only at hpk hv
        simp [hpk, hv]
      exact hpkv ▸ List.mem_cons_self p ps
    · simp only [alookup, if_neg hpk] at h
      exact List.mem_cons_of_mem p (ih h)

theorem all_imp {α : Type} (f g : α → Bool) (m : List α) (hm : m.all f = true)
    (hfg : ∀ x, f x = true → g x = true) : m.all g = true := by
  rw [List.all_eq_true] at hm ⊢
  exact fun x hx => hfg x (hm x hx)

theorem all_mapSet {α β : Type} [DecidableEq α] (f : α × β → Bool)
    (m : List (α × β)) (a : α) (b : β) (hm : m.all f = true) (hb : f (a, b) = true) :
    (mapSet m a b).all f = true := by
  rw [List.all_eq_true] at hm ⊢
  intro p hp
  rcases mem_mapSet m a b p hp with h | h
  · exact hm p h
  · exact h ▸ hb

theorem ext_refl (s : RegState) : Ext s s :=
  ⟨Nat.le_refl _, fun _ _ h => h, fun _ _ h => h, fun _ _ h => h, fun _ _ h => h,
    fun _ _ h => h, fun _ h => h⟩

theorem ext_trans {s t u : RegState} (h1 : Ext s t) (h2 : Ext t u) : Ext s u := by
  obtain ⟨a1, b1, c1, d1, e1, f1, g1⟩ := h1
  obtain ⟨a2, b2, c2, d2, e2, f2, g2⟩ := h2
  exact ⟨Nat.le_trans a1 a2, fun k id h => b2 k id (b1 k id h),
    fun id k h => c2 id k (c1 id k h), fun id h hh => d2 id h (d1 id h hh),
    fun id h hh => e2 id h (e1 id h hh), fun id h hh => f2 id h (f1 id h hh),
    fun h hh => g2 h (g1 h hh)⟩

theorem component_none (s : RegState) :
    component s none = .error ("assertion failed", s) := rfl

theorem component_hit (s : RegState) (k : String) (id : Nat)
    (h : alookup s.components k = some id) : component s (some k) = .ok (id, s) := by
  simp [component, h]

theorem component_fresh_eq (s : RegState) (k : String)
    (h : alookup s.components k = none) :
    component s (some k) = .ok (s.store.nextHandle, mintedState s k) := by
  simp [component, h, Store.component, createSignal, Store.set, mintedState]

theorem component_binds (s : RegState) (k : String) (id : Nat) (s1 : RegState)
    (h : component s (some k) = .ok (id, s1)) : alookup s1.components k = some id := by
  cases hk : alookup s.components k with
  | some i =>
    rw [component_hit s k i hk] at h
    have hpair := Except.ok.inj h
    injection hpair with h1 h2
    subst h1; subst h2
    exact hk
  | none =>
    rw [component_fresh_eq s k hk] at h
    have hpair := Except.ok.inj h
    injection hpair with h1 h2
    subst h1; subst h2
    show alookup (mapSet s.components k s.store.nextHandle) k = some s.store.nextHandle
    rw [alookup_mapSet]
    simp

theorem component_some_ok (s : RegState) (k : String) :
    okE (component s (some k)) = true := by
  cases hk : alookup s.components k with
  | some id => rw [component_hit s k id hk]; rfl
  | none => rw [component_fresh_eq s k hk]; rfl

theorem goodB_store (s : RegState) (st : Store) (hle : s.store.nextHandle ≤ st.nextHandle)
    (h : goodB s = true) : goodB { s with store := st } = true := by
  unfold goodB boundedB syncB at h ⊢
  simp only [Bool.and_eq_true, List.all_eq_true, decide_eq_true_eq] at h ⊢
  obtain ⟨⟨⟨⟨⟨hIK, hSA⟩, hSC⟩, hSR⟩, hsyA, hsyR⟩, hTL⟩ := h
  exact ⟨⟨⟨⟨⟨fun p hp => lt_of_lt_of_le (hIK p hp) hle,
      fun p hp => lt_of_lt_of_le (hSA p hp) hle⟩,
      fun p hp => lt_of_lt_of_le (hSC p hp) hle⟩,
      fun p hp => lt_of_lt_of_le (hSR p hp) hle⟩,
    hsyA, hsyR⟩, fun p hp => hTL p hp⟩

theorem ext_store (s : RegState) (st : Store) (hle : s.store.nextHandle ≤ st.nextHandle) :
    Ext s { s with store := st } :=
  ⟨hle, fun _ _ h => h, fun _ _ h => h, fun _ _ h => h, fun _ _ h => h, fun _ _ h => h,
    fun _ h => h⟩

theorem liveSig_mapSet (s t : RegState) (m : List (Nat × Nat)) (a hNew id : Nat)
    (hsub : ∀ x ∈ s.liveSignals, x ∈ t.liveSignals) (hmem : hNew ∈ t.liveSignals)
    (hold : liveSigB s (alookup m id) = true) :
    liveSigB t (alookup (mapSet m a hNew) id) = true := by
  rw [alookup_mapSet]
  by_cases hai : a = id
  · simp [hai, liveSigB, hmem]
  · simp only [if_neg hai]
    cases hl : alookup m id with
    | none => rw [hl] at hold; simp [liveSigB] at hold
    | some hh =>
      rw [hl] at hold
      simp only [liveSigB, decide_eq_true_eq] at hold ⊢
      exact hsub hh hold

theorem component_step (s : RegState) (key : Option String) (h : goodB s = true) :
    goodB (outState (component s key)) = true ∧ Ext s (outState (component s key)) := by
  cases key with
  | none => exact ⟨h, ext_refl s⟩
  | some k =>
    cases hk : alookup s.components k with
    | some id => rw [component_hit s k id hk]; exact ⟨h, ext_refl s⟩
    | none =>
      rw [component_fresh_eq s k hk]
      show goodB (mintedState s k) = true ∧ Ext s (mintedState s k)
      have hgood := h
      unfold goodB boundedB syncB at hgood
      simp only [Bool.and_eq_true, List.all_eq_true, decide_eq_true_eq] at hgood
      obtain ⟨⟨⟨⟨⟨hIK, hSA⟩, hSC⟩, hSR⟩, hsyA, hsyR⟩, hTL⟩ := hgood
      have hsub : ∀ x ∈ s.liveSignals, x ∈ (mintedState s k).liveSignals := by
        intro x hx
        simp only [mintedState, List.mem_append]
        exact Or.inl (Or.inl (Or.inl hx))
      have hmemA : s.nextSignal ∈ (mintedState s k).liveSignals := by
        simp [mintedState, List.mem_append]
      have hmemR : s.nextSignal + 1 ∈ (mintedState s k).liveSignals := by
        simp [mintedState, List.mem_append]
      have hmemC : s.nextSignal + 2 ∈ (mintedState s k).liveSignals := by
        simp [mintedState, List.mem_append]
      have hext : Ext s (mintedState s k) := by
        refine ⟨Nat.le_succ _, ?_, ?_, ?_, ?_, ?_, hsub⟩
        · intro k' id' h'
          show alookup (mapSet s.components k s.store.nextHandle) k' = some id'
          rw [alookup_mapSet]
          by_cases hkk : k = k'
          · rw [← hkk, hk] at h'; exact absurd h' (by simp)
          · simp [hkk, h']
        · intro id' k' h'
          show alookup (mapSet s.idToKey s.store.nextHandle k) id' = some k'
          rw [alookup_mapSet]
          have hlt : id' < s.store.nextHandle := hIK (id', k') (alookup_mem _ _ _ h')
          have hne : ¬s.store.nextHandle = id' := by omega
          simp [hne, h']
        · intro id' h' hh
          show alookup (mapSet s.signalsAdded s.store.nextHandle s.nextSignal) id' = some h'
          rw [alookup_mapSet]
          have hlt : id' < s.store.nextHandle := hSA (id', h') (alookup_mem _ _ _ hh)
          have hne : ¬s.store.nextHandle = id' := by omega
          simp [hne, hh]
        · intro id' h' hh
          show alookup (mapSet s.signalsChanged s.store.nextHandle (s.nextSignal + 2)) id'
            = some h'
          rw [alookup_mapSet]
          have hlt : id' < s.store.nextHandle := hSC (id', h') (alookup_mem _ _ _ hh)
          have hne : ¬s.store.nextHandle = id' := by omega
          simp [hne, hh]
        · intro id' h' hh
          show alookup (mapSet s.signalsRemoved s.store.nextHandle (s.nextSignal + 1)) id'
            = some h'
          rw [alookup_mapSet]
          have hlt : id' < s.store.nextHandle := hSR (id', h') (alookup_mem _ _ _ hh)
          have hne : ¬s.store.nextHandle = id' := by omega
          simp [hne, hh]
      refine ⟨?_, hext⟩
      unfold goodB boundedB syncB
      simp only [Bool.and_eq_true, List.all_eq_true, decide_eq_true_eq]
      refine ⟨⟨⟨⟨⟨?_, ?_⟩, ?_⟩, ?_⟩, ?_, ?_⟩, ?_⟩
      · intro p hp
        simp only [mintedState] at hp ⊢
        rcases mem_mapSet _ _ _ _ hp with hold | hnew
        · have := hIK p hold; omega
        · subst hnew; simp
      · intro p hp
        simp only [mintedState] at hp ⊢
        rcases mem_mapSet _ _ _ _ hp with hold | hnew
        · have := hSA p hold; omega
        · subst hnew; simp
      · intro p hp
        simp only [mintedState] at hp ⊢
        rcases mem_mapSet _ _ _ _ hp with hold | hnew
        · have := hSC p hold; omega
        · subst hnew; simp
      · intro p hp
        simp only [mintedState] at hp ⊢
        rcases mem_mapSet _ _ _ _ hp with hold | hnew
        · have := hSR p hold; omega
        · subst hnew; simp
      · intro p hp
        simp only [mintedState] at hp ⊢
        rw [alookup_mapSet]
        rcases mem_mapSet _ _ _ _ hp with hold | hnew
        · by_cases hid : s.store.nextHandle = p.1
          · simp [hid]
          · simp only [if_neg hid]
            exact hsyA p hold
        · subst hnew
          simp
      · intro p hp
        simp only [mintedState] at hp ⊢
        rw [alookup_mapSet]
        rcases mem_mapSet _ _ _ _ hp with hold | hnew
        · by_cases hid : s.store.nextHandle = p.1
          · simp [hid]
          · simp only [if_neg hid]
            exact hsyR p hold
        · subst hnew
          simp
      · intro p hp
        have hp' : p ∈ mapSet s.components k s.store.nextHandle := hp
        rcases mem_mapSet _ _ _ _ hp' with hold | hnew
        · have htl := hTL p hold
          unfold tripleLiveB at htl ⊢
          simp only [Bool.and_eq_true] at htl ⊢
          obtain ⟨⟨ha, hc⟩, hr⟩ := htl
          refine ⟨⟨?_, ?_⟩, ?_⟩
          · simp only [added] at ha ⊢
            exact liveSig_mapSet s (mintedState s k) s.signalsAdded s.store.nextHandle
              s.nextSignal p.2 hsub hmemA ha
          · exact liveSig_mapSet s (mintedState s k) s.signalsChanged s.store.nextHandle
              (s.nextSignal + 2) p.2 hsub hmemC hc
          · simp only [removed] at hr ⊢
            exact liveSig_mapSet s (mintedState s k) s.signalsRemoved s.store.nextHandle
              (s.nextSignal + 1) p.2 hsub hmemR hr
        · subst hnew
          unfold tripleLiveB
          simp [added, removed, mintedState, alookup_mapSet, liveSigB, List.mem_append]

theorem component_err_state (s : RegState) (key : Option String) (m : String)
    (t : RegState) (h : component s key = .error (m, t)) : t = s := by
  cases key with
  | none =>
    rw [component_none] at h
    have := Except.error.inj h
    injection this with h1 h2
    exact h2.symm
  | some k =>
    have hok := component_some_ok s k
    rw [h] at hok
    simp [okE] at hok

theorem store_set_nextHandle (st : Store) (e id : Nat) (v : Val) :
    (Store.set st e id v).nextHandle = st.nextHandle := rfl

theorem store_add_nextHandle (st : Store) (e id : Nat) :
    (Store.add st e id).nextHandle = st.nextHandle := by
  unfold Store.add
  cases alookup st.records (e, id) <;> rfl

theorem set_step (s : RegState) (entity : Nat) (value : Val) (key : Option String)
    (h : goodB s = true) :
    goodB (voidState (set s entity value key)) = true ∧
      Ext s (voidState (set s entity value key)) := by
  have hc := component_step s key h
  cases hcc : component s key with
  | error err =>
    obtain ⟨m, t⟩ := err
    rw [hcc] at hc
    simp only [outState] at hc
    simp only [set, hcc, voidState]
    exact hc
  | ok p =>
    obtain ⟨id, s1⟩ := p
    rw [hcc] at hc
    simp only [outState] at hc
    simp only [set, hcc, voidState]
    have hnh : s1.store.nextHandle ≤ (Store.set s1.store entity id value).nextHandle := by
      rw [store_set_nextHandle]
    exact ⟨goodB_store s1 _ hnh hc.1, ext_trans hc.2 (ext_store s1 _ hnh)⟩

theorem add_step (s : RegState) (entity : Nat) (key : Option String)
    (h : goodB s = true) :
    goodB (voidState (add s entity key)) = true ∧
      Ext s (voidState (add s entity key)) := by
  have hc := component_step s key h
  cases hcc : component s key with
  | error err =>
    obtain ⟨m, t⟩ := err
    rw [hcc] at hc
    simp only [outState] at hc
    simp only [add, hcc, voidState]
    exact hc
  | ok p =>
    obtain ⟨id, s1⟩ := p
    rw [hcc] at hc
    simp only [outState] at hc
    simp only [add, hcc, voidState]
    have hnh : s1.store.nextHandle ≤ (Store.add s1.store entity id).nextHandle := by
      rw [store_add_nextHandle]
    exact ⟨goodB_store s1 _ hnh hc.1, ext_trans hc.2 (ext_store s1 _ hnh)⟩

theorem remove_step (s : RegState) (entity : Nat) (key : Option String)
    (h : goodB s = true) :
    goodB (voidState (remove s entity key)) = true ∧
      Ext s (voidState (remove s entity key)) := by
  have hc := component_step s key h
  cases hcc : component s key with
  | error err =>
    obtain ⟨m, t⟩ := err
    rw [hcc] at hc
    simp only [outState] at hc
    simp only [remove, hcc, voidState]
    exact hc
  | ok p =>
    obtain ⟨id, s1⟩ := p
    rw [hcc] at hc
    simp only [outState] at hc
    simp only [remove, hcc, voidState]
    have hnh : s1.store.nextHandle ≤ (Store.remove s1.store entity id).nextHandle :=
      Nat.le_refl _
    exact ⟨goodB_store s1 _ hnh hc.1, ext_trans hc.2 (ext_store s1 _ hnh)⟩

theorem get_outState (s : RegState) (entity : Nat) (key : Option String) :
    outState (get s entity key) = outState (component s key) := by
  cases hcc : component s key with
  | error err =>
    obtain ⟨m, t⟩ := err
    simp [get, hcc, outState]
  | ok p =>
    obtain ⟨id, s1⟩ := p
    simp [get, hcc, outState]

theorem has_outState (s : RegState) (entity : Nat) (key : Option String) :
    outState (has s entity key) = outState (component s key) := by
  cases hcc : component s key with
  | error err =>
    obtain ⟨m, t⟩ := err
    simp [has, hcc, outState]
  | ok p =>
    obtain ⟨id, s1⟩ := p
    simp [has, hcc, outState]

theorem get_step (s : RegState) (entity : Nat) (key : Option String)
    (h : goodB s = true) :
    goodB (outState (get s entity key)) = true ∧
      Ext s (outState (get s entity key)) := by
  rw [get_outState]
  exact component_step s key h

theorem has_step (s : RegState) (entity : Nat) (key : Option String)
    (h : goodB s = true) :
    goodB (outState (has s entity key)) = true ∧
      Ext s (outState (has s entity key)) := by
  rw [has_outState]
  exact component_step s key h

theorem insertLoop_step (ks : List String) :
    ∀ (s : RegState) (entity : Nat) (vs : List Val), goodB s = true →
      goodB (voidState (insertLoop s entity vs ks)) = true ∧
        Ext s (voidState (insertLoop s entity vs ks)) := by
  induction ks with
  | nil => intro s entity vs h; exact ⟨h, ext_refl s⟩
  | cons k rest ih =>
    intro s entity vs h
    have hok := component_some_ok s k
    cases hcc : component s (some k) with
    | error err => rw [hcc] at hok; simp [okE] at hok
    | ok p =>
      obtain ⟨id, s1⟩ := p
      have hc := component_step s (some k) h
      rw [hcc] at hc
      simp only [outState] at hc
      simp only [insertLoop, hcc]
      have hnh : s1.store.nextHandle ≤
          (Store.set s1.store entity id (Val.arr vs)).nextHandle := by
        rw [store_set_nextHandle]
      have h2 := goodB_store s1 _ hnh hc.1
      have hrest := ih { s1 with store := Store.set s1.store entity id (Val.arr vs) }
        entity vs h2
      exact ⟨hrest.1, ext_trans (ext_trans hc.2 (ext_store s1 _ hnh)) hrest.2⟩

theorem insert_step (s : RegState) (entity : Nat) (vs : List Val)
    (keys : Option (List String)) (h : goodB s = true) :
    goodB (voidState (insert s entity vs keys)) = true ∧
      Ext s (voidState (insert s entity vs keys)) := by
  cases keys with
  | none => exact ⟨h, ext_refl s⟩
  | some ks => exact insertLoop_step ks s entity vs h

theorem spawnLoop_step (vs : List Val) :
    ∀ (s : RegState) (entity : Nat) (ks : List String), goodB s = true →
      goodB (voidState (spawnLoop s entity vs ks)) = true ∧
        Ext s (voidState (spawnLoop s entity vs ks)) := by
  induction vs with
  | nil => intro s entity ks h; exact ⟨h, ext_refl s⟩
  | cons v rest ih =>
    intro s entity ks h
    have hc := component_step s ks.head? h
    cases hcc : component s ks.head? with
    | error err =>
      obtain ⟨m, t⟩ := err
      rw [hcc] at hc
      simp only [outState] at hc
      simp only [spawnLoop, hcc]
      exact hc
    | ok p =>
      obtain ⟨id, s1⟩ := p
      rw [hcc] at hc
      simp only [outState] at hc
      simp only [spawnLoop, hcc]
      have hnh : s1.store.nextHandle ≤ (Store.set s1.store entity id v).nextHandle := by
        rw [store_set_nextHandle]
      have h2 := goodB_store s1 _ hnh hc.1
      have hrest := ih { s1 with store := Store.set s1.store entity id v } entity ks.tail h2
      exact ⟨hrest.1, ext_trans (ext_trans hc.2 (ext_store s1 _ hnh)) hrest.2⟩

theorem spawn_step (s : RegState) (bundle : Option (List Val))
    (keys : Option (List String)) (h : goodB s = true) :
    goodB (outState (spawn s bundle keys)) = true ∧
      Ext s (outState (spawn s bundle keys)) := by
  have hnh : s.store.nextHandle ≤ ((Store.entity s.store).2).nextHandle := by
    simp [Store.entity]
  have h1 : goodB { s with store := (Store.entity s.store).2 } = true := goodB_store s _ hnh h
  have hext1 : Ext s { s with store := (Store.entity s.store).2 } := ext_store s _ hnh
  cases keys with
  | none =>
    cases bundle with
    | none => exact ⟨h1, hext1⟩
    | some vs => exact ⟨h1, hext1⟩
  | some ks =>
    cases bundle with
    | none => exact ⟨h1, hext1⟩
    | some vs =>
      have hstep := spawnLoop_step vs { s with store := (Store.entity s.store).2 }
        ((Store.entity s.store).1) ks h1
      cases hsl : spawnLoop { s with store := (Store.entity s.store).2 }
          ((Store.entity s.store).1) vs ks with
      | error err =>
        obtain ⟨m, t⟩ := err
        rw [hsl] at hstep
        simp only [voidState] at hstep
        simp only [spawn, hsl, outState]
        exact ⟨hstep.1, ext_trans hext1 hstep.2⟩
      | ok s2 =>
        rw [hsl] at hstep
        simp only [voidState] at hstep
        simp only [spawn, hsl, outState]
        exact ⟨hstep.1, ext_trans hext1 hstep.2⟩

theorem despawn_step (s : RegState) (entity : Nat) (h : goodB s = true) :
    goodB (despawn s entity) = true ∧ Ext s (despawn s entity) := by
  have hnh : s.store.nextHandle ≤ (Store.delete s.store entity).nextHandle := Nat.le_refl _
  exact ⟨goodB_store s _ hnh h, ext_store s _ hnh⟩

theorem runOp_step (op : Op) (s : RegState) (h : goodB s = true) :
    goodB (runOp op s) = true ∧ Ext s (runOp op s) := by
  cases op with
  | opComponent key => exact component_step s key h
  | opSet entity value key => exact set_step s entity value key h
  | opInsert entity values keys => exact insert_step s entity values keys h
  | opAdd entity key => exact add_step s entity key h
  | opRemove entity key => exact remove_step s entity key h
  | opGet entity key => exact get_step s entity key h
  | opHas entity key => exact has_step s entity key h
  | opSpawn bundle keys => exact spawn_step s bundle keys h
  | opDespawn entity => exact despawn_step s entity h

theorem runSeq_step (ops : List Op) :
    ∀ s : RegState, goodB s = true →
      goodB (runSeq ops s) = true ∧ Ext s (runSeq ops s) := by
  induction ops with
  | nil => intro s h; exact ⟨h, ext_refl s⟩
  | cons op rest ih =>
    intro s h
    have h1 := runOp_step op s h
    have h2 := ih (runOp op s) h1.1
    exact ⟨h2.1, ext_trans h1.2 h2.2⟩

theorem tripleLive_of_good (s : RegState) (k : String) (id : Nat) (hg : goodB s = true)
    (hb : alookup s.components k = some id) : tripleLiveB s id = true := by
  unfold goodB at hg
  simp only [Bool.and_eq_true, List.all_eq_true] at hg
  exact hg.2 (k, id) (alookup_mem _ _ _ hb)

theorem liveSig_pres {s t : RegState} (m m' : List (Nat × Nat)) (id : Nat)
    (hm : ∀ h, alookup m id = some h → alookup m' id = some h)
    (hL : ∀ h, h ∈ s.liveSignals → h ∈ t.liveSignals)
    (h : liveSigB s (alookup m id) = true) : liveSigB t (alookup m' id) = true := by
  cases hl : alookup m id with
  | none => rw [hl] at h; simp [liveSigB] at h
  | some hh =>
    rw [hl] at h
    rw [hm hh hl]
    simp only [liveSigB, decide_eq_true_eq] at h ⊢
    exact hL hh h

theorem tripleLive_ext {s t : RegState} {id : Nat} (he : Ext s t)
    (h : tripleLiveB s id = true) : tripleLiveB t id = true := by
  obtain ⟨_, _, _, hA, hC, hR, hL⟩ := he
  unfold tripleLiveB added removed at h ⊢
  simp only [Bool.and_eq_true] at h ⊢
  obtain ⟨⟨ha, hc⟩, hr⟩ := h
  exact ⟨⟨liveSig_pres _ _ id (hA id) hL ha, liveSig_pres _ _ id (hC id) hL hc⟩,
    liveSig_pres _ _ id (hR id) hL hr⟩

theorem component_entityAllocs (s : RegState) (key : Option String) :
    (outState (component s key)).store.entityAllocs = s.store.entityAllocs := by
  cases key with
  | none => rfl
  | some k =>
    cases hk : alookup s.components k with
    | some id => rw [component_hit s k id hk]; rfl
    | none => rw [component_fresh_eq s k hk]; rfl

theorem spawnLoop_entityAllocs (vs : List Val) :
    ∀ (s : RegState) (entity : Nat) (ks : List String),
      (voidState (spawnLoop s entity vs ks)).store.entityAllocs =
        s.store.entityAllocs := by
  induction vs with
  | nil => intro s entity ks; rfl
  | cons v rest ih =>
    intro s entity ks
    have hca := component_entityAllocs s ks.head?
    cases hcc : component s ks.head? with
    | error err =>
      obtain ⟨m, t⟩ := err
      rw [hcc] at hca
      simp only [outState] at hca
      simp only [spawnLoop, hcc, voidState]
      exact hca
    | ok p =>
      obtain ⟨id, s1⟩ := p
      rw [hcc] at hca
      simp only [outState] at hca
      simp only [spawnLoop, hcc]
      rw [ih]
      exact hca

theorem spawnLoop_eq_setAll (vs : List Val) :
    ∀ (s : RegState) (entity : Nat) (ks : List String),
      spawnLoop s entity vs ks = setAll s entity vs ks := by
  induction vs with
  | nil => intro s entity ks; rfl
  | cons v rest ih =>
    intro s entity ks
    cases hcc : component s ks.head? with
    | error err => simp [spawnLoop, setAll, set, hcc]
    | ok p =>
      obtain ⟨id, s1⟩ := p
      simp [spawnLoop, setAll, set, hcc, ih]

theorem insertLoop_ok (ks : List String) :
    ∀ (s : RegState) (entity : Nat) (vs : List Val),
      okE (insertLoop s entity vs ks) = true := by
  induction ks with
  | nil => intro s entity vs; rfl
  | cons k rest ih =>
    intro s entity vs
    have hok := component_some_ok s k
    cases hcc : component s (some k) with
    | error err => rw [hcc] at hok; simp [okE] at hok
    | ok p =>
      obtain ⟨id, s1⟩ := p
      simp only [insertLoop, hcc]
      exact ih _ entity vs

theorem spawnLoop_ok_ble (vs : List Val) :
    ∀ (s : RegState) (entity : Nat) (ks : List String),
      okE (spawnLoop s entity vs ks) = Nat.ble vs.length ks.length := by
  induction vs with
  | nil => intro s entity ks; cases ks <;> rfl
  | cons v rest ih =>
    intro s entity ks
    cases ks with
    | nil => rfl
    | cons k kt =>
      have hok := component_some_ok s k
      cases hcc : component s (some k) with
      | error err => rw [hcc] at hok; simp [okE] at hok
      | ok p =>
        obtain ⟨id, s1⟩ := p
        have hh : (k :: kt).head? = some k := rfl
        simp only [spawnLoop, hh, hcc, List.tail_cons]
        rw [ih]
        rfl

/-- C1: resolving the same type key twice yields the same identifier both
times; the store-side allocation `registry.component()` happens exactly once
— on the first call when the key is fresh, not at all when it was already
interned — and the second call returns with the registry state completely
unchanged (no side effects on any map, signal or the store). -/
theorem component_idempotent_single_alloc (s : RegState) (k : String) :
    match component s (some k) with
    | .ok (id, s1) =>
        component s1 (some k) = .ok (id, s1) ∧
        s1.store.componentAllocs =
          s.store.componentAllocs + (if alookup s.components k = none then 1 else 0)
    | .error _ => False := by
  cases hk : alookup s.components k with
  | some id =>
    rw [component_hit s k id hk]
    refine ⟨component_hit s k id hk, ?_⟩
    simp
  | none =>
    rw [component_fresh_eq s k hk]
    refine ⟨?_, ?_⟩
    · apply component_hit
      show alookup (mapSet s.components k s.store.nextHandle) k = some s.store.nextHandle
      rw [alookup_mapSet]
      simp
    · simp [mintedState]

/-- C2 (evaluation of the code at the failing input): on a fresh registry,
`insert(100, [10, 20], ["A", "B"])` stores the whole bundle `[10, 20]` under
both resolved identifiers (4 for "A" and 5 for "B") — the source executes
`registry.set(entity, id, values)` with the entire `values` array — instead
of storing `10` under "A" and `20` under "B". -/
theorem insert_stores_whole_bundle :
    Store.get (voidState (insert initState 100 [Val.num 10, Val.num 20]
        (some ["A", "B"]))).store 100 4 =
      some (Val.arr [Val.num 10, Val.num 20]) ∧
    Store.get (voidState (insert initState 100 [Val.num 10, Val.num 20]
        (some ["A", "B"]))).store 100 5 =
      some (Val.arr [Val.num 10, Val.num 20]) :=
  ⟨rfl, rfl⟩

/-- C3: after `component(k)` returns identifier `id`, the `added`, `changed`
and `removed` signals of `id` all resolve to valid live Signal instances —
already before any entity has used `id` — and they remain live after any
further sequence of facade operations: signals are never destroyed. -/
theorem component_signals_live_forever (s : RegState) (k : String) (ops : List Op)
    (hg : goodB s = true) :
    match component s (some k) with
    | .ok (id, s1) =>
        tripleLiveB s1 id = true ∧ tripleLiveB (runSeq ops s1) id = true
    | .error _ => False := by
  have hok := component_some_ok s k
  cases hcc : component s (some k) with
  | error err => rw [hcc] at hok; simp [okE] at hok
  | ok p =>
    obtain ⟨id, s1⟩ := p
    have hstep := component_step s (some k) hg
    rw [hcc] at hstep
    simp only [outState] at hstep
    have hbind := component_binds s k id s1 hcc
    have h1 : tripleLiveB s1 id = true := tripleLive_of_good s1 k id hstep.1 hbind
    have h2 := runSeq_step ops s1 hstep.1
    exact ⟨h1, tripleLive_ext h2.2 h1⟩

/-- Witness for C3: concrete run from the initial state with key "A",
followed by a bare spawn and a despawn. -/
theorem component_signals_live_forever_witness :
    goodB initState = true ∧
      (match component initState (some "A") with
       | .ok (id, s1) =>
           tripleLiveB s1 id = true ∧
             tripleLiveB (runSeq [Op.opSpawn none none, Op.opDespawn 4] s1) id = true
       | .error _ => False) :=
  ⟨by decide, component_signals_live_forever initState "A"
    [Op.opSpawn none none, Op.opDespawn 4] (by decide)⟩

/-- C5 counterexample: `spawn` invoked with a bundle but an absent key list
does not fail fast with a diagnostic — it silently succeeds, returning a
bare entity. -/
theorem spawn_bundle_absent_keys_no_failure :
    spawn initState (some [Val.num 10]) none =
      .ok (4, { initState with store :=
        { nextHandle := 5, entityAllocs := 1, componentAllocs := 0, records := [] } }) :=
  rfl

/-- C5 (amended): `component`, `set`, `insert`, `add`, `remove`, `get` and
`has` invoked with an absent key all fail fast with the assertion diagnostic
and leave the registry state exactly as it was; `spawn` with a bundle but
absent keys is the exception: it raises no error and silently spawns a bare
entity, ignoring the bundle. -/
theorem absent_key_fails_fast_except_spawn (s : RegState) (entity : Nat) (value : Val)
    (values : List Val) :
    component s none = .error ("assertion failed", s) ∧
    set s entity value none = .error ("assertion failed", s) ∧
    insert s entity values none = .error ("assertion failed", s) ∧
    add s entity none = .error ("assertion failed", s) ∧
    remove s entity none = .error ("assertion failed", s) ∧
    get s entity none = .error ("assertion failed", s) ∧
    has s entity none = .error ("assertion failed", s) ∧
    spawn s (some values) none =
      .ok ((Store.entity s.store).1, { s with store := (Store.entity s.store).2 }) :=
  ⟨rfl, rfl, rfl, rfl, rfl, rfl, rfl, rfl⟩

/-- C6 counterexample: identifier 42 was never minted on the fresh registry,
yet `added(42)` and `removed(42)` do not fail with a missing-key error — they
silently return the absent value. -/
theorem accessors_unminted_silently_absent :
    added initState 42 = none ∧ removed initState 42 = none :=
  ⟨rfl, rfl⟩

/-- C6 (amended): in any state reachable from the initial one by facade
operations, `added(id)` and `removed(id)` for an identifier never minted
through `component` (no `idToKey` record) silently return the absent value
rather than failing with an error. -/
theorem accessors_unminted_return_absent (ops : List Op) (id : Nat)
    (h : alookup (runSeq ops initState).idToKey id = none) :
    added (runSeq ops initState) id = none ∧
      removed (runSeq ops initState) id = none := by
  have hg : goodB (runSeq ops initState) = true :=
    (runSeq_step ops initState (by decide)).1
  unfold goodB syncB at hg
  simp only [Bool.and_eq_true, List.all_eq_true] at hg
  obtain ⟨⟨_, hsyA, hsyR⟩, _⟩ := hg
  constructor
  · show alookup (runSeq ops initState).signalsAdded id = none
    cases hl : alookup (runSeq ops initState).signalsAdded id with
    | none => rfl
    | some hh =>
      exfalso
      have hmem := alookup_mem _ _ _ hl
      have hsome := hsyA (id, hh) hmem
      rw [h] at hsome
      simp at hsome
  · show alookup (runSeq ops initState).signalsRemoved id = none
    cases hl : alookup (runSeq ops initState).signalsRemoved id with
    | none => rfl
    | some hh =>
      exfalso
      have hmem := alookup_mem _ _ _ hl
      have hsome := hsyR (id, hh) hmem
      rw [h] at hsome
      simp at hsome

/-- Witness for C6 (amended): after interning "A", identifier 99 was never
minted and both accessors return the absent value. -/
theorem accessors_unminted_return_absent_witness :
    alookup (runSeq [Op.opComponent (some "A")] initState).idToKey 99 = none ∧
      (added (runSeq [Op.opComponent (some "A")] initState) 99 = none ∧
        removed (runSeq [Op.opComponent (some "A")] initState) 99 = none) :=
  ⟨by decide, accessors_unminted_return_absent [Op.opComponent (some "A")] 99 (by decide)⟩

/-- C7 counterexample: `insert` with two values but a single key — mismatched
lengths — does not fail fast and loud; it returns normally. -/
theorem insert_length_mismatch_no_error :
    okE (insert initState 100 [Val.num 10, Val.num 20] (some ["A"])) = true :=
  rfl

/-- C7 (amended): neither operation checks that the two sequences have equal
length.  `insert` never fails: it walks the key list whatever the value
count (storing the whole value list under each key's identifier).  `spawn`
walks the bundle: it returns normally precisely when the bundle is no longer
than the key list (surplus keys are silently ignored), and aborts via the
absent-key assertion inside `component` when the keys run out first. -/
theorem length_mismatch_not_checked (s : RegState) (entity : Nat) (vs : List Val)
    (ks : List String) (bundle : List Val) (keys : List String) :
    okE (insert s entity vs (some ks)) = true ∧
    okE (spawn s (some bundle) (some keys)) = Nat.ble bundle.length keys.length := by
  constructor
  · exact insertLoop_ok ks s entity vs
  · have h := spawnLoop_ok_ble bundle { s with store := (Store.entity s.store).2 }
      ((Store.entity s.store).1) keys
    cases hsl : spawnLoop { s with store := (Store.entity s.store).2 }
        ((Store.entity s.store).1) bundle keys with
    | error err =>
      rw [hsl] at h
      simp only [spawn, hsl, okE]
      simp only [okE] at h
      exact h
    | ok s2 =>
      rw [hsl] at h
      simp only [spawn, hsl, okE]
      simp only [okE] at h
      exact h

/-- C9: when exactly one of bundle and keys is absent, `spawn` raises no
error and returns a freshly allocated bare entity with no components set —
the store's records are untouched and the present argument is silently
ignored. -/
theorem spawn_single_absent_arg_bare_entity (s : RegState) (vs : List Val)
    (ks : List String) :
    spawn s (some vs) none =
      .ok ((Store.entity s.store).1, { s with store := (Store.entity s.store).2 }) ∧
    spawn s none (some ks) =
      .ok ((Store.entity s.store).1, { s with store := (Store.entity s.store).2 }) ∧
    ((Store.entity s.store).2).records = s.store.records :=
  ⟨rfl, rfl, rfl⟩

/-- C4: `spawn(bundle, keys)` requests exactly one new entity from the store
(the entity allocation count rises by exactly one), performs — in sequence
order — the equivalent of one facade `set` per positional (value, key) pair
on that entity, and returns the entity; with both arguments absent it
returns a bare entity with no components set. -/
theorem spawn_one_entity_then_sets_each (s : RegState) (vs : List Val)
    (ks : List String) :
    (spawn s (some vs) (some ks) =
      match setAll { s with store := (Store.entity s.store).2 }
          ((Store.entity s.store).1) vs ks with
      | .error err => .error err
      | .ok s2 => .ok ((Store.entity s.store).1, s2)) ∧
    spawn s none none =
      .ok ((Store.entity s.store).1, { s with store := (Store.entity s.store).2 }) ∧
    (outState (spawn s (some vs) (some ks))).store.entityAllocs =
      s.store.entityAllocs + 1 := by
  refine ⟨?_, rfl, ?_⟩
  · simp only [spawn]
    rw [spawnLoop_eq_setAll]
  · have hal := spawnLoop_entityAllocs vs { s with store := (Store.entity s.store).2 }
      ((Store.entity s.store).1) ks
    cases hsl : spawnLoop { s with store := (Store.entity s.store).2 }
        ((Store.entity s.store).1) vs ks with
    | error err =>
      obtain ⟨m, t⟩ := err
      rw [hsl] at hal
      simp only [voidState] at hal
      simp only [spawn, hsl, outState]
      exact hal
    | ok s2 =>
      rw [hsl] at hal
      simp only [voidState] at hal
      simp only [spawn, hsl, outState]
      exact hal

/-- C8: the key-to-identifier memoization table only ever grows: an existing
binding `k ↦ id` survives any sequence of facade operations unchanged —
never removed, never overwritten — so each key is written at most once. -/
theorem components_binding_monotone (ops : List Op) (s : RegState) (k : String)
    (id : Nat) (hg : goodB s = true) (hb : alookup s.components k = some id) :
    alookup (runSeq ops s).components k = some id :=
  (runSeq_step ops s hg).2.2.1 k id hb

/-- Witness for C8: the binding "A" ↦ 4 created by the first `component`
call survives a spawn (which interns "B") and a despawn. -/
theorem components_binding_monotone_witness :
    goodB (runOp (Op.opComponent (some "A")) initState) = true ∧
      alookup (runOp (Op.opComponent (some "A")) initState).components "A" = some 4 ∧
      alookup (runSeq [Op.opSpawn (some [Val.num 7]) (some ["B"]), Op.opDespawn 4]
        (runOp (Op.opComponent (some "A")) initState)).components "A" = some 4 :=
  ⟨by decide, by decide, components_binding_monotone
    [Op.opSpawn (some [Val.num 7]) (some ["B"]), Op.opDespawn 4]
    (runOp (Op.opComponent (some "A")) initState) "A" 4 (by decide) (by decide)⟩

/-- C10: the read-only queries `get` and `has`, called with a type key that
was never interned, mutate the registry as a side effect: they mint a fresh
identifier, record it in both map directions, perform one store allocation,
create the three live signals and register the three lifecycle hooks on the
store — and only then query the already-mutated store. -/
theorem get_has_intern_side_effect (s : RegState) (entity : Nat) (k : String)
    (h : alookup s.components k = none) :
    match component s (some k) with
    | .ok (id, s1) =>
        id = s.store.nextHandle ∧
        get s entity (some k) = .ok (Store.get s1.store entity id, s1) ∧
        has s entity (some k) = .ok (Store.has s1.store entity id, s1) ∧
        alookup s1.components k = some id ∧
        alookup s1.idToKey id = some k ∧
        s1.store.componentAllocs = s.store.componentAllocs + 1 ∧
        added s1 id = some s.nextSignal ∧
        alookup s1.signalsChanged id = some (s.nextSignal + 2) ∧
        removed s1 id = some (s.nextSignal + 1) ∧
        s.nextSignal ∈ s1.liveSignals ∧
        s.nextSignal + 1 ∈ s1.liveSignals ∧
        s.nextSignal + 2 ∈ s1.liveSignals ∧
        Store.get s1.store id OnAdd = some (Val.hookAdded s.nextSignal) ∧
        Store.get s1.store id OnRemove = some (Val.hookRemoved (s.nextSignal + 1)) ∧
        Store.get s1.store id OnSet = some (Val.hookChanged (s.nextSignal + 2))
    | .error _ => False := by
  rw [component_fresh_eq s k h]
  refine ⟨rfl, ?_, ?_, ?_, ?_, rfl, ?_, ?_, ?_, ?_, ?_, ?_, ?_, ?_, ?_⟩
  · simp only [get]
    rw [component_fresh_eq s k h]
  · simp only [has]
    rw [component_fresh_eq s k h]
  · show alookup (mapSet s.components k s.store.nextHandle) k = some s.store.nextHandle
    rw [alookup_mapSet]
    simp
  · show alookup (mapSet s.idToKey s.store.nextHandle k) s.store.nextHandle = some k
    rw [alookup_mapSet]
    simp
  · show alookup (mapSet s.signalsAdded s.store.nextHandle s.nextSignal)
        s.store.nextHandle = some s.nextSignal
    rw [alookup_mapSet]
    simp
  · show alookup (mapSet s.signalsChanged s.store.nextHandle (s.nextSignal + 2))
        s.store.nextHandle = some (s.nextSignal + 2)
    rw [alookup_mapSet]
    simp
  · show alookup (mapSet s.signalsRemoved s.store.nextHandle (s.nextSignal + 1))
        s.store.nextHandle = some (s.nextSignal + 1)
    rw [alookup_mapSet]
    simp
  · simp [mintedState, List.mem_append]
  · simp [mintedState, List.mem_append]
  · simp [mintedState, List.mem_append]
  · simp [Store.get, mintedState, alookup_mapSet, OnAdd, OnRemove, OnSet]
  · simp [Store.get, mintedState, alookup_mapSet, OnAdd, OnRemove, OnSet]
  · simp [Store.get, mintedState, alookup_mapSet, OnAdd, OnRemove, OnSet]

/-- Witness for C10: key "HP" on the fresh registry, queried for entity 0. -/
theorem get_has_intern_side_effect_witness :
    alookup initState.components "HP" = none ∧
      (match component initState (some "HP") with
       | .ok (id, s1) =>
           id = initState.store.nextHandle ∧
           get initState 0 (some "HP") = .ok (Store.get s1.store 0 id, s1) ∧
           has initState 0 (some "HP") = .ok (Store.has s1.store 0 id, s1) ∧
           alookup s1.components "HP" = some id ∧
           alookup s1.idToKey id = some "HP" ∧
           s1.store.componentAllocs = initState.store.componentAllocs + 1 ∧
           added s1 id = some initState.nextSignal ∧
           alookup s1.signalsChanged id = some (initState.nextSignal + 2) ∧
           removed s1 id = some (initState.nextSignal + 1) ∧
           initState.nextSignal ∈ s1.liveSignals ∧
           initState.nextSignal + 1 ∈ s1.liveSignals ∧
           initState.nextSignal + 2 ∈ s1.liveSignals ∧
           Store.get s1.store id OnAdd = some (Val.hookAdded initState.nextSignal) ∧
           Store.get s1.store id OnRemove =
             some (Val.hookRemoved (initState.nextSignal + 1)) ∧
           Store.get s1.store id OnSet =
             some (Val.hookChanged (initState.nextSignal + 2))
       | .error _ => False) :=
  ⟨rfl, get_has_intern_side_effect initState 0 "HP" rfl⟩

end Flamecs
